import Mathlib

/-
Verification of the Optimistic Mutation and Undo/Redo Engine.

The definitions below are a shallow embedding of:
  - the TasksProvider store operations (createTask, toggleComplete,
    updateTitle, reorderTasks, deleteTask) from the frontend TasksContext;
  - the backend task routes (POST tasks, PATCH tasks/reorder) from
    backend/src/routes/lists.ts;
  - the useUndoRedo hook (action log, undo/redo stacks) and the
    UndoRedoProvider wrapper layer.

JavaScript millisecond timestamps (Date.now, new Date().toISOString) are
modelled by a Nat-valued clock passed explicitly; network responses are
modelled by an explicit Except-valued parameter so that each asynchronous
operation becomes a pure function of its inputs and its remote outcome.
-/

namespace TaskApp

/-- A Task entity as held by the frontend store (TasksContextDef.Task).
`createdAt`/`updatedAt` ISO strings are modelled as Nat clock readings;
`order` is an Int because the client never validates order values. -/
structure Task where
  id : String
  title : String
  isCompleted : Bool
  order : Int
  createdAt : Nat
  updatedAt : Nat
deriving DecidableEq

/-- Error taxonomy of the engine: client-side pre-network validation,
missing-id lookups, and network/server failures surfaced after an
optimistic apply. -/
inductive StoreError where
  | validationErr : String → StoreError
  | notFound : String → StoreError
  | remote : String → StoreError
deriving DecidableEq

/-- Backend AppError codes used by the task routes. -/
inductive ServerErr where
  | validationErr : String → ServerErr
  | notFound : String → ServerErr
  | maxTasksReached : String → ServerErr
deriving DecidableEq

def MAX_TASKS_PER_LIST : Nat := 25

def TITLE_MAX_LENGTH : Nat := 64

deriving instance DecidableEq for Except

/-- Outcome of one client store operation: the promise result, the final
tasks collection, and whether the network was contacted. -/
structure OpResult (α : Type) where
  result : Except StoreError α
  tasks : List Task
  networkCalled : Bool
deriving DecidableEq

/-- JavaScript `String.prototype.trim`: strip leading and trailing
whitespace (executable model; core String.trim is not kernel-reducible). -/
def jsTrim (s : String) : String :=
  ⟨((s.data.dropWhile Char.isWhitespace).reverse.dropWhile Char.isWhitespace).reverse⟩

/-- JavaScript `String.prototype.length` (code units; modelled as the
number of characters). -/
def jsLength (s : String) : Nat := s.data.length

/-- `tasks.length > 0 ? Math.max(...tasks.map(t => t.order)) : 0` -/
def jsMaxOrder : List Task → Int
  | [] => 0
  | t :: rest => rest.foldl (fun m u => max m u.order) t.order

/-- The synthetic id of an optimistic entity: `` `temp-${Date.now()}` ``. -/
def tempId (clock : Nat) : String := "temp-" ++ Nat.repr clock

/-- The optimistic Task synthesized by createTask before the network call. -/
def optimisticTask (clock : Nat) (tasks : List Task) (title : String) : Task :=
  { id := tempId clock
    title := jsTrim title
    isCompleted := false
    order := jsMaxOrder tasks + 1
    createdAt := clock
    updatedAt := clock }

/-- createTask from TasksContext: validates title and the task limit
before any network traffic, appends the optimistic temp task, then either
replaces it by id with the server's canonical task or filters it out. -/
def createTask (clock : Nat) (tasks : List Task) (title : String)
    (remote : Except String Task) : OpResult Task :=
  if jsTrim title = "" then
    ⟨.error (.validationErr "Title is required"), tasks, false⟩
  else if jsLength (jsTrim title) > 64 then
    ⟨.error (.validationErr "Title must be at most 64 characters"), tasks, false⟩
  else if tasks.length ≥ MAX_TASKS_PER_LIST then
    ⟨.error (.validationErr "Maximum 25 tasks allowed per list"), tasks, false⟩
  else
    let opt := optimisticTask clock tasks title
    let afterOpt := tasks ++ [opt]
    match remote with
    | .ok created =>
        ⟨.ok created, afterOpt.map (fun t => if t.id = opt.id then created else t), true⟩
    | .error e =>
        ⟨.error (.remote e), afterOpt.filter (fun t => t.id ≠ opt.id), true⟩

/-- toggleComplete from TasksContext: flips the flag and stamps updatedAt
optimistically; on success overwrites with the server's canonical task; on
failure flips the flag back (only the flag — updatedAt keeps the
optimistic stamp). -/
def toggleComplete (clock : Nat) (tasks : List Task) (taskId : String)
    (remote : Except String Task) : OpResult Unit :=
  match tasks.find? (fun t => t.id = taskId) with
  | none => ⟨.error (.notFound "Task not found"), tasks, false⟩
  | some task =>
    let newIsCompleted := !task.isCompleted
    let afterOpt := tasks.map (fun t =>
      if t.id = taskId then { t with isCompleted := newIsCompleted, updatedAt := clock } else t)
    match remote with
    | .ok updated =>
        ⟨.ok (), afterOpt.map (fun t => if t.id = taskId then updated else t), true⟩
    | .error e =>
        ⟨.error (.remote e),
         afterOpt.map (fun t => if t.id = taskId then { t with isCompleted := !newIsCompleted } else t),
         true⟩

/-- updateTitle from TasksContext: validates, no-ops when the trimmed new
title equals the current one, otherwise applies the title and updatedAt
optimistically; on failure restores only the previous title string. -/
def updateTitle (clock : Nat) (tasks : List Task) (taskId : String) (newTitle : String)
    (remote : Except String Task) : OpResult Unit :=
  let trimmedTitle := jsTrim newTitle
  if trimmedTitle = "" then
    ⟨.error (.validationErr "Title is required"), tasks, false⟩
  else if jsLength trimmedTitle > 64 then
    ⟨.error (.validationErr "Title must be at most 64 characters"), tasks, false⟩
  else
    match tasks.find? (fun t => t.id = taskId) with
    | none => ⟨.error (.notFound "Task not found"), tasks, false⟩
    | some task =>
      let oldTitle := task.title
      if trimmedTitle = oldTitle then
        ⟨.ok (), tasks, false⟩
      else
        let afterOpt := tasks.map (fun t =>
          if t.id = taskId then { t with title := trimmedTitle, updatedAt := clock } else t)
        match remote with
        | .ok updated =>
            ⟨.ok (), afterOpt.map (fun t => if t.id = taskId then updated else t), true⟩
        | .error e =>
            ⟨.error (.remote e),
             afterOpt.map (fun t => if t.id = taskId then { t with title := oldTitle } else t),
             true⟩

/-- Stable insertion step of the JS `sort((a, b) => a.order - b.order)`:
the inserted element goes after every element whose order is ≤ its own. -/
def insertByOrder (t : Task) : List Task → List Task
  | [] => [t]
  | u :: us => if u.order ≤ t.order then u :: insertByOrder t us else t :: u :: us

/-- Stable sort by `order`, processing elements left to right, modelling
`Array.prototype.sort` with the numeric `order` comparator. -/
def sortByOrder (ts : List Task) : List Task :=
  ts.foldl (fun acc t => insertByOrder t acc) []

/-- One step of the optimistic reorder loop: `findIndex` locates the first
task with the given id and its order/updatedAt are overwritten. -/
def applyOrder (clock : Nat) (tid : String) (o : Int) : List Task → List Task
  | [] => []
  | t :: ts =>
      if t.id = tid then { t with order := o, updatedAt := clock } :: ts
      else t :: applyOrder clock tid o ts

/-- The whole optimistic reorder loop over the supplied order pairs. -/
def applyOrders (clock : Nat) (tasks : List Task) (orders : List (String × Int)) : List Task :=
  orders.foldl (fun acc p => applyOrder clock p.1 p.2 acc) tasks

/-- One step of the success merge: the first task with a matching id is
replaced by the server's canonical copy. -/
def replaceById (u : Task) : List Task → List Task
  | [] => []
  | t :: ts => if t.id = u.id then u :: ts else t :: replaceById u ts

/-- The success merge of reorderTasks: every canonical server task replaces
its client copy by id, then the result is re-sorted by order. -/
def mergeServerTasks (prev : List Task) (updatedTasks : List Task) : List Task :=
  sortByOrder (updatedTasks.foldl (fun acc u => replaceById u acc) prev)

/-- reorderTasks from TasksContext: snapshots the collection, applies the
supplied order values optimistically (ids that are not found are skipped),
sorts, and calls the network; on success merges the canonical copies back
in by id; on failure restores the snapshot verbatim. There is no
client-side validation of ids or order values. -/
def reorderTasks (clock : Nat) (tasks : List Task) (orders : List (String × Int))
    (remote : Except String (List Task)) : OpResult Unit :=
  let originalTasks := tasks
  let reordered := sortByOrder (applyOrders clock tasks orders)
  match remote with
  | .ok updatedTasks => ⟨.ok (), mergeServerTasks reordered updatedTasks, true⟩
  | .error e => ⟨.error (.remote e), originalTasks, true⟩

/-- deleteTask from TasksContext: captures a full copy of the entity,
removes it optimistically, and on failure re-inserts the captured copy at
its order-sorted position. The returned Task is the captured copy that the
undo closure is built from. -/
def deleteTask (tasks : List Task) (taskId : String)
    (remote : Except String Unit) : OpResult Task :=
  match tasks.find? (fun t => t.id = taskId) with
  | none => ⟨.error (.notFound "Task not found"), tasks, false⟩
  | some task =>
    let deletedTask := task
    let afterOpt := tasks.filter (fun t => t.id ≠ taskId)
    match remote with
    | .ok _ => ⟨.ok deletedTask, afterOpt, true⟩
    | .error e => ⟨.error (.remote e), sortByOrder (afterOpt ++ [deletedTask]), true⟩

/-- The undo closure captured by deleteTask: POSTs `{ title: deletedTask.title }`
to the create endpoint and appends the server's restored task to the
current collection (it does not go through the store's createTask). -/
def deleteUndoClosure (tasks : List Task)
    (remote : Except String Task) : Except StoreError (List Task) :=
  match remote with
  | .ok restoredTask => .ok (tasks ++ [restoredTask])
  | .error e => .error (.remote e)

/-- POST /api/lists/:listId/tasks from backend/src/routes/lists.ts:
validates the title, enforces the per-list limit, and creates a task with
a server-generated document id and `order = maxOrder + 1`. -/
def serverCreateTask (now : Nat) (freshId : String) (serverTasks : List Task)
    (title : String) : Except ServerErr Task :=
  if jsTrim title = "" then .error (.validationErr "Title is required")
  else if jsLength (jsTrim title) > TITLE_MAX_LENGTH then
    .error (.validationErr "Title must be at most 64 characters")
  else if serverTasks.length ≥ MAX_TASKS_PER_LIST then
    .error (.maxTasksReached "Maximum 25 tasks allowed per list")
  else
    .ok { id := freshId
          title := jsTrim title
          isCompleted := false
          order := jsMaxOrder serverTasks + 1
          createdAt := now
          updatedAt := now }

/-- PATCH /api/lists/:listId/tasks/reorder from backend/src/routes/lists.ts:
first validates the shape of every item (taskId a nonempty string, order a
number ≥ 1), then checks each referenced task exists (404 NOT_FOUND), and
on success answers with one canonical copy per supplied pair carrying
exactly the supplied order value — no re-normalization to 1..N.
This definition is the per-item shape validation loop. -/
def validateOrderItems : List (String × Int) → Except ServerErr Unit
  | [] => .ok ()
  | (tid, o) :: rest =>
      if tid = "" then .error (.validationErr "Each order item must have a valid taskId")
      else if o < 1 then
        .error (.validationErr "Each order item must have a valid order number (>= 1)")
      else validateOrderItems rest

/-- The reorder route itself: empty-array check, per-item shape check,
then the per-item existence check and batch response construction. -/
def serverReorder (now : Nat) (serverTasks : List Task)
    (orders : List (String × Int)) : Except ServerErr (List Task) :=
  if orders.isEmpty then .error (.validationErr "orders array cannot be empty")
  else
    match validateOrderItems orders with
    | .error e => .error e
    | .ok _ => go serverTasks orders []
where
  go (serverTasks : List Task) : List (String × Int) → List Task → Except ServerErr (List Task)
    | [], acc => .ok acc.reverse
    | (tid, o) :: rest, acc =>
      match serverTasks.find? (fun t => t.id = tid) with
      | none => .error (.notFound ("Task " ++ tid ++ " not found"))
      | some taskData =>
          go serverTasks rest ({ taskData with order := o, updatedAt := now } :: acc)

/-- The message the client receives when the backend rejects a request:
the client wraps `data.message` in a thrown Error. -/
def serverErrMessage : ServerErr → String
  | .validationErr m => m
  | .notFound m => m
  | .maxTasksReached m => m

/-- A client reorder call whose network leg is answered by the modelled
backend reorder route over the server's task collection. -/
def reorderRoundTrip (clock now : Nat) (clientTasks serverTasks : List Task)
    (orders : List (String × Int)) : OpResult Unit :=
  reorderTasks clock clientTasks orders
    (match serverReorder now serverTasks orders with
     | .ok l => .ok l
     | .error e => .error (serverErrMessage e))

/-- UndoableAction from useUndoRedo: the five Action variants. The
DELETE_TASK variant captures the deleted task copy; its undo closure is a
function of that copy's title, modelled by `deleteUndoClosure`. -/
inductive UndoableAction where
  | addTask (task : Task) (timestamp : Nat)
  | deleteTask (task : Task) (timestamp : Nat)
  | completeTask (taskId : String) (previousState : Bool) (timestamp : Nat)
  | editTitle (taskId : String) (previousTitle newTitle : String) (timestamp : Nat)
  | reorderTasks (previousOrders newOrders : List (String × Int)) (timestamp : Nat)
deriving DecidableEq

/-- The two stacks of useUndoRedo, most-recent-last. -/
structure UndoRedoState where
  undoStack : List UndoableAction
  redoStack : List UndoableAction
deriving DecidableEq

def canUndo (s : UndoRedoState) : Bool := s.undoStack.length > 0

def canRedo (s : UndoRedoState) : Bool := s.redoStack.length > 0

/-- recordAction: append to the undo stack and clear the redo stack,
unconditionally. -/
def recordAction (s : UndoRedoState) (action : UndoableAction) : UndoRedoState :=
  { undoStack := s.undoStack ++ [action], redoStack := [] }

/-- The network responses available to one undo/redo dispatch, one per
remote operation shape. -/
structure RemoteEnv where
  createResp : Except String Task
  updateResp : Except String Task
  deleteResp : Except String Unit
  reorderResp : Except String (List Task)

/-- The undo dispatch switch of useUndoRedo, composed with the store
operations the UndoRedoProvider handlers call (the DELETE_TASK branch
calls the captured closure directly, not a store operation). -/
def dispatchUndo (clock : Nat) (env : RemoteEnv) (tasks : List Task) :
    UndoableAction → Except StoreError Unit × List Task
  | .addTask task _ =>
      let r := deleteTask tasks task.id env.deleteResp
      (r.result.map (fun _ => ()), r.tasks)
  | .deleteTask _ _ =>
      match deleteUndoClosure tasks env.createResp with
      | .ok tasks1 => (.ok (), tasks1)
      | .error e => (.error e, tasks)
  | .completeTask taskId _ _ =>
      let r := toggleComplete clock tasks taskId env.updateResp
      (r.result, r.tasks)
  | .editTitle taskId previousTitle _ _ =>
      let r := updateTitle clock tasks taskId previousTitle env.updateResp
      (r.result, r.tasks)
  | .reorderTasks previousOrders _ _ =>
      let r := reorderTasks clock tasks previousOrders env.reorderResp
      (r.result, r.tasks)

/-- The redo dispatch switch of useUndoRedo composed with the store
operations (ADD_TASK recreates via createTask with the recorded title). -/
def dispatchRedo (clock : Nat) (env : RemoteEnv) (tasks : List Task) :
    UndoableAction → Except StoreError Unit × List Task
  | .addTask task _ =>
      let r := createTask clock tasks task.title env.createResp
      (r.result.map (fun _ => ()), r.tasks)
  | .deleteTask task _ =>
      let r := deleteTask tasks task.id env.deleteResp
      (r.result.map (fun _ => ()), r.tasks)
  | .completeTask taskId _ _ =>
      let r := toggleComplete clock tasks taskId env.updateResp
      (r.result, r.tasks)
  | .editTitle taskId _ newTitle _ =>
      let r := updateTitle clock tasks taskId newTitle env.updateResp
      (r.result, r.tasks)
  | .reorderTasks _ newOrders _ =>
      let r := reorderTasks clock tasks newOrders env.reorderResp
      (r.result, r.tasks)

/-- undo from useUndoRedo: no-op when the undo stack is empty; otherwise
dispatch the inverse of the most recent action; on dispatch success move
the action to the redo stack; on dispatch failure leave both stacks
untouched and rethrow the error. -/
def undo (clock : Nat) (env : RemoteEnv) (tasks : List Task) (s : UndoRedoState) :
    Except StoreError Unit × List Task × UndoRedoState :=
  match s.undoStack.getLast? with
  | none => (.ok (), tasks, s)
  | some action =>
    let newUndoStack := s.undoStack.dropLast
    match dispatchUndo clock env tasks action with
    | (.ok _, tasks1) =>
        (.ok (), tasks1, { undoStack := newUndoStack, redoStack := s.redoStack ++ [action] })
    | (.error e, tasks1) => (.error e, tasks1, s)

/-- redo from useUndoRedo, symmetric to undo. -/
def redo (clock : Nat) (env : RemoteEnv) (tasks : List Task) (s : UndoRedoState) :
    Except StoreError Unit × List Task × UndoRedoState :=
  match s.redoStack.getLast? with
  | none => (.ok (), tasks, s)
  | some action =>
    let newRedoStack := s.redoStack.dropLast
    match dispatchRedo clock env tasks action with
    | (.ok _, tasks1) =>
        (.ok (), tasks1, { undoStack := s.undoStack ++ [action], redoStack := newRedoStack })
    | (.error e, tasks1) => (.error e, tasks1, s)

/-- createTaskWithUndo from UndoRedoProvider: run the store createTask and
record an ADD_TASK action only when it resolves. -/
def createTaskWithUndo (clock : Nat) (tasks : List Task) (s : UndoRedoState)
    (title : String) (remote : Except String Task) :
    Except StoreError Task × List Task × UndoRedoState :=
  let r := createTask clock tasks title remote
  match r.result with
  | .ok task => (.ok task, r.tasks, recordAction s (.addTask task clock))
  | .error e => (.error e, r.tasks, s)

/-- deleteTaskWithUndo from UndoRedoProvider: look the task up, run the
store deleteTask, and record a DELETE_TASK action only on success. -/
def deleteTaskWithUndo (clock : Nat) (tasks : List Task) (s : UndoRedoState)
    (taskId : String) (remote : Except String Unit) :
    Except StoreError Unit × List Task × UndoRedoState :=
  match tasks.find? (fun t => t.id = taskId) with
  | none => (.error (.notFound "Task not found"), tasks, s)
  | some _ =>
    let r := deleteTask tasks taskId remote
    match r.result with
    | .ok deletedTask => (.ok (), r.tasks, recordAction s (.deleteTask deletedTask clock))
    | .error e => (.error e, r.tasks, s)

/-- toggleCompleteWithUndo from UndoRedoProvider: read the previous flag,
run the store toggleComplete, and record COMPLETE_TASK only on success. -/
def toggleCompleteWithUndo (clock : Nat) (tasks : List Task) (s : UndoRedoState)
    (taskId : String) (remote : Except String Task) :
    Except StoreError Unit × List Task × UndoRedoState :=
  match tasks.find? (fun t => t.id = taskId) with
  | none => (.error (.notFound "Task not found"), tasks, s)
  | some task =>
    let previousState := task.isCompleted
    let r := toggleComplete clock tasks taskId remote
    match r.result with
    | .ok _ => (.ok (), r.tasks, recordAction s (.completeTask taskId previousState clock))
    | .error e => (.error e, r.tasks, s)

/-- updateTitleWithUndo from UndoRedoProvider: read the previous title,
skip unchanged titles, run the store updateTitle, and record EDIT_TITLE
only on success. -/
def updateTitleWithUndo (clock : Nat) (tasks : List Task) (s : UndoRedoState)
    (taskId : String) (newTitle : String) (remote : Except String Task) :
    Except StoreError Unit × List Task × UndoRedoState :=
  match tasks.find? (fun t => t.id = taskId) with
  | none => (.error (.notFound "Task not found"), tasks, s)
  | some task =>
    let previousTitle := task.title
    if jsTrim newTitle = previousTitle then (.ok (), tasks, s)
    else
      let r := updateTitle clock tasks taskId newTitle remote
      match r.result with
      | .ok _ =>
          (.ok (), r.tasks, recordAction s (.editTitle taskId previousTitle (jsTrim newTitle) clock))
      | .error e => (.error e, r.tasks, s)

/-- reorderTasksWithUndo from UndoRedoProvider: snapshot the previous
(id, order) pairs, run the store reorderTasks, and record REORDER_TASKS
only on success. -/
def reorderTasksWithUndo (clock : Nat) (tasks : List Task) (s : UndoRedoState)
    (orders : List (String × Int)) (remote : Except String (List Task)) :
    Except StoreError Unit × List Task × UndoRedoState :=
  let previousOrders := tasks.map (fun t => (t.id, t.order))
  let r := reorderTasks clock tasks orders remote
  match r.result with
  | .ok _ => (.ok (), r.tasks, recordAction s (.reorderTasks previousOrders orders clock))
  | .error e => (.error e, r.tasks, s)

/-- A concrete 25-task collection (ids "t1".."t25"), used to exercise the
per-list limit on concrete inputs. -/
def tasks25 : List Task :=
  (List.range 25).map (fun i =>
    { id := "t" ++ Nat.repr (i + 1)
      title := "Task " ++ Nat.repr (i + 1)
      isCompleted := false
      order := (i : Int) + 1
      createdAt := 0
      updatedAt := 0 })

/-- Big-endian decimal digit characters of a natural number: a structural
reference implementation of core Nat.toDigits 10, used to reason about
the uniqueness of the temp ids synthesized from Date.now(). -/
def toDigitsRec (n : Nat) : List Char :=
  if h : n / 10 = 0 then [Nat.digitChar (n % 10)]
  else toDigitsRec (n / 10) ++ [Nat.digitChar (n % 10)]
termination_by n
decreasing_by
  exact Nat.div_lt_self (Nat.pos_of_ne_zero (fun hn => h (by simp [hn]))) (by norm_num)

/-- C6: for every stack state and every Action variant, when the dispatch
inside undo() (or redo()) fails both stacks are exactly as before the call
and the dispatch error is propagated unchanged; when the dispatch succeeds
the popped Action is moved to the opposite stack; an empty stack is a
no-op. -/
theorem undo_redo_stack_discipline (clock : Nat) (env : RemoteEnv) (tasks : List Task)
    (s : UndoRedoState) :
    (s.undoStack = [] → undo clock env tasks s = (.ok (), tasks, s)) ∧
    (∀ init action e tasks1,
      s.undoStack = init ++ [action] →
      dispatchUndo clock env tasks action = (.error e, tasks1) →
      undo clock env tasks s = (.error e, tasks1, s)) ∧
    (∀ init action tasks1,
      s.undoStack = init ++ [action] →
      dispatchUndo clock env tasks action = (.ok (), tasks1) →
      undo clock env tasks s =
        (.ok (), tasks1, { undoStack := init, redoStack := s.redoStack ++ [action] })) ∧
    (s.redoStack = [] → redo clock env tasks s = (.ok (), tasks, s)) ∧
    (∀ init action e tasks1,
      s.redoStack = init ++ [action] →
      dispatchRedo clock env tasks action = (.error e, tasks1) →
      redo clock env tasks s = (.error e, tasks1, s)) ∧
    (∀ init action tasks1,
      s.redoStack = init ++ [action] →
      dispatchRedo clock env tasks action = (.ok (), tasks1) →
      redo clock env tasks s =
        (.ok (), tasks1, { undoStack := s.undoStack ++ [action], redoStack := init })) := by
  refine ⟨?_, ?_, ?_, ?_, ?_, ?_⟩
  · intro h
    simp [undo, h]
  · intro init action e tasks1 hstack hdisp
    simp [undo, hstack, List.getLast?_concat, hdisp]
  · intro init action tasks1 hstack hdisp
    simp [undo, hstack, List.getLast?_concat, List.dropLast_concat, hdisp]
  · intro h
    simp [redo, h]
  · intro init action e tasks1 hstack hdisp
    simp [redo, hstack, List.getLast?_concat, hdisp]
  · intro init action tasks1 hstack hdisp
    simp [redo, hstack, List.getLast?_concat, List.dropLast_concat, hdisp]

/-- Witness for undo_redo_stack_discipline: a concrete one-action stack
whose dispatch fails, leaving the stacks untouched with the error
propagated. -/
theorem undo_redo_stack_discipline_witness :
    undo 7
      { createResp := .error "down", updateResp := .error "down",
        deleteResp := .error "down", reorderResp := .error "down" }
      [⟨"a", "A", false, 1, 0, 0⟩]
      ⟨[.completeTask "a" false 3], []⟩
      = (.error (.remote "down"),
         [⟨"a", "A", false, 1, 0, 7⟩],
         ⟨[.completeTask "a" false 3], []⟩) :=
  (undo_redo_stack_discipline 7
      { createResp := .error "down", updateResp := .error "down",
        deleteResp := .error "down", reorderResp := .error "down" }
      [⟨"a", "A", false, 1, 0, 0⟩]
      ⟨[.completeTask "a" false 3], []⟩).2.1
    [] (.completeTask "a" false 3) (.remote "down") [⟨"a", "A", false, 1, 0, 7⟩]
    (by decide) (by decide)

/-- C7: record(action) appends the Action to the undo stack and clears the
redo stack unconditionally, so canRedo is false after any record; in
particular a new successful recorded mutation (here through the create
wrapper) after an undo() leaves canRedo false. -/
theorem record_clears_redo (s : UndoRedoState) (a : UndoableAction)
    (clock : Nat) (tasks : List Task) (title : String) (remote : Except String Task) :
    recordAction s a = { undoStack := s.undoStack ++ [a], redoStack := [] } ∧
    canRedo (recordAction s a) = false ∧
    (∀ task, (createTaskWithUndo clock tasks s title remote).1 = .ok task →
      canRedo (createTaskWithUndo clock tasks s title remote).2.2 = false) := by
  refine ⟨rfl, rfl, ?_⟩
  intro task hok
  unfold createTaskWithUndo at hok ⊢
  cases hres : (createTask clock tasks title remote).result with
  | ok t => simp [hres, canRedo, recordAction]
  | error e => simp [hres] at hok

/-- Witness for record_clears_redo: a state with a pending redo entry and
a concrete successful create; recording leaves canRedo false. -/
theorem record_clears_redo_witness :
    canRedo (createTaskWithUndo 3 [] ⟨[], [.completeTask "a" false 1]⟩ "Buy milk"
      (.ok ⟨"srv1", "Buy milk", false, 1, 3, 3⟩)).2.2 = false :=
  (record_clears_redo ⟨[], [.completeTask "a" false 1]⟩ (.completeTask "a" false 1)
      3 [] "Buy milk" (.ok ⟨"srv1", "Buy milk", false, 1, 3, 3⟩)).2.2
    ⟨"srv1", "Buy milk", false, 1, 3, 3⟩ (by decide)

/-- C5: for every wrapped operation, when the call rejects (for any
reason, pre-network or remote) nothing is recorded: both stacks are
exactly as before the call, so a failed optimistic mutation never appears
in the history. -/
theorem no_record_on_failure (clock : Nat) (tasks : List Task) (s : UndoRedoState) :
    (∀ title remoteT err, (createTaskWithUndo clock tasks s title remoteT).1 = .error err →
      (createTaskWithUndo clock tasks s title remoteT).2.2 = s) ∧
    (∀ taskId remoteU err, (deleteTaskWithUndo clock tasks s taskId remoteU).1 = .error err →
      (deleteTaskWithUndo clock tasks s taskId remoteU).2.2 = s) ∧
    (∀ taskId remoteT err, (toggleCompleteWithUndo clock tasks s taskId remoteT).1 = .error err →
      (toggleCompleteWithUndo clock tasks s taskId remoteT).2.2 = s) ∧
    (∀ taskId newTitle remoteT err,
      (updateTitleWithUndo clock tasks s taskId newTitle remoteT).1 = .error err →
      (updateTitleWithUndo clock tasks s taskId newTitle remoteT).2.2 = s) ∧
    (∀ orders remoteL err, (reorderTasksWithUndo clock tasks s orders remoteL).1 = .error err →
      (reorderTasksWithUndo clock tasks s orders remoteL).2.2 = s) := by
  refine ⟨?_, ?_, ?_, ?_, ?_⟩
  · intro title remoteT err h
    unfold createTaskWithUndo at h ⊢
    cases hres : (createTask clock tasks title remoteT).result with
    | ok t => simp [hres] at h
    | error e => simp [hres]
  · intro taskId remoteU err h
    unfold deleteTaskWithUndo at h ⊢
    cases hfind : tasks.find? (fun t => t.id = taskId) with
    | none => simp [hfind]
    | some task =>
      cases hres : (deleteTask tasks taskId remoteU).result with
      | ok t => simp [hfind, hres] at h
      | error e => simp [hfind, hres]
  · intro taskId remoteT err h
    unfold toggleCompleteWithUndo at h ⊢
    cases hfind : tasks.find? (fun t => t.id = taskId) with
    | none => simp [hfind]
    | some task =>
      cases hres : (toggleComplete clock tasks taskId remoteT).result with
      | ok t => simp [hfind, hres] at h
      | error e => simp [hfind, hres]
  · intro taskId newTitle remoteT err h
    unfold updateTitleWithUndo at h ⊢
    cases hfind : tasks.find? (fun t => t.id = taskId) with
    | none => simp [hfind]
    | some task =>
      by_cases hskip : jsTrim newTitle = task.title
      · simp [hfind, hskip] at h
      · cases hres : (updateTitle clock tasks taskId newTitle remoteT).result with
        | ok t => simp [hfind, hskip, hres] at h
        | error e => simp [hfind, hskip, hres]
  · intro orders remoteL err h
    unfold reorderTasksWithUndo at h ⊢
    cases hres : (reorderTasks clock tasks orders remoteL).result with
    | ok t => simp [hres] at h
    | error e => simp [hres]

/-- Witness for no_record_on_failure: a concrete toggle whose network
call fails leaves a nonempty undo stack untouched. -/
theorem no_record_on_failure_witness :
    (toggleCompleteWithUndo 7 [⟨"a", "A", false, 1, 0, 0⟩]
        ⟨[.addTask ⟨"a", "A", false, 1, 0, 0⟩ 2], []⟩ "a" (.error "down")).2.2
      = ⟨[.addTask ⟨"a", "A", false, 1, 0, 0⟩ 2], []⟩ :=
  (no_record_on_failure 7 [⟨"a", "A", false, 1, 0, 0⟩]
      ⟨[.addTask ⟨"a", "A", false, 1, 0, 0⟩ 2], []⟩).2.2.1
    "a" (.error "down") (.remote "down") (by decide)

/-- C10: createTask on a collection already holding 25 tasks rejects with
a ValidationError before any network call and any state change, leaving
the collection length at 25; the same pre-network validation rejects a
title whose trimmed length is outside [1, 64]. -/
theorem create_validation (clock : Nat) (tasks : List Task) (title : String)
    (remote : Except String Task) :
    (tasks.length = 25 →
      (∃ m, (createTask clock tasks title remote).result = .error (.validationErr m)) ∧
      (createTask clock tasks title remote).tasks = tasks ∧
      (createTask clock tasks title remote).networkCalled = false ∧
      (createTask clock tasks title remote).tasks.length = 25) ∧
    (jsTrim title = "" ∨ jsLength (jsTrim title) > 64 →
      (∃ m, (createTask clock tasks title remote).result = .error (.validationErr m)) ∧
      (createTask clock tasks title remote).tasks = tasks ∧
      (createTask clock tasks title remote).networkCalled = false) := by
  constructor
  · intro hlen
    have hge : tasks.length ≥ MAX_TASKS_PER_LIST := by
      simp [MAX_TASKS_PER_LIST, hlen]
    unfold createTask
    split_ifs with h1 h2
    · exact ⟨⟨"Title is required", rfl⟩, rfl, rfl, hlen⟩
    · exact ⟨⟨"Title must be at most 64 characters", rfl⟩, rfl, rfl, hlen⟩
    · exact ⟨⟨"Maximum 25 tasks allowed per list", rfl⟩, rfl, rfl, hlen⟩
  · intro hbad
    unfold createTask
    split_ifs with h1 h2 h3
    · exact ⟨⟨"Title is required", rfl⟩, rfl, rfl⟩
    · exact ⟨⟨"Title must be at most 64 characters", rfl⟩, rfl, rfl⟩
    · exact ⟨⟨"Maximum 25 tasks allowed per list", rfl⟩, rfl, rfl⟩
    · rcases hbad with hempty | hlong
      · exact absurd hempty h1
      · exact absurd hlong h2

/-- Witness for create_validation: a 26th create on a concrete 25-task
collection, and an empty-title create, both rejected pre-network. -/
theorem create_validation_witness :
    ((∃ m, (createTask 9 (tasks25) "Extra" (.ok ⟨"x", "Extra", false, 26, 9, 9⟩)).result
        = .error (.validationErr m)) ∧
      (createTask 9 (tasks25) "Extra" (.ok ⟨"x", "Extra", false, 26, 9, 9⟩)).tasks = tasks25 ∧
      (createTask 9 (tasks25) "Extra" (.ok ⟨"x", "Extra", false, 26, 9, 9⟩)).networkCalled = false ∧
      (createTask 9 (tasks25) "Extra" (.ok ⟨"x", "Extra", false, 26, 9, 9⟩)).tasks.length = 25) ∧
    ((∃ m, (createTask 9 [] "   " (.ok ⟨"x", "y", false, 1, 9, 9⟩)).result
        = .error (.validationErr m)) ∧
      (createTask 9 [] "   " (.ok ⟨"x", "y", false, 1, 9, 9⟩)).tasks = [] ∧
      (createTask 9 [] "   " (.ok ⟨"x", "y", false, 1, 9, 9⟩)).networkCalled = false) :=
  ⟨(create_validation 9 tasks25 "Extra" (.ok ⟨"x", "Extra", false, 26, 9, 9⟩)).1 (by decide),
   (create_validation 9 [] "   " (.ok ⟨"x", "y", false, 1, 9, 9⟩)).2 (.inl (by decide))⟩

theorem validateOrderItems_ok (orders : List (String × Int))
    (h : ∀ p ∈ orders, p.1 ≠ "" ∧ 1 ≤ p.2) : validateOrderItems orders = .ok () := by
  induction orders with
  | nil => rfl
  | cons p rest ih =>
    obtain ⟨hid, ho⟩ := h p (by simp)
    obtain ⟨tid, o⟩ := p
    simp only [validateOrderItems]
    rw [if_neg hid, if_neg (by omega)]
    exact ih (fun q hq => h q (by simp [hq]))

theorem validateOrderItems_low_order (orders : List (String × Int))
    (hids : ∀ p ∈ orders, p.1 ≠ "") (hbad : ∃ p ∈ orders, p.2 < 1) :
    validateOrderItems orders =
      .error (.validationErr "Each order item must have a valid order number (>= 1)") := by
  induction orders with
  | nil => simp at hbad
  | cons p rest ih =>
    have hid : p.1 ≠ "" := hids p (by simp)
    obtain ⟨tid, o⟩ := p
    simp only [validateOrderItems]
    rw [if_neg hid]
    by_cases ho : o < 1
    · rw [if_pos ho]
    · rw [if_neg ho]
      rcases hbad with ⟨q, hq, hqlt⟩
      rcases List.mem_cons.mp hq with rfl | hqrest
      · exact absurd hqlt ho
      · exact ih (fun r hr => hids r (by simp [hr])) ⟨q, hqrest, hqlt⟩

theorem serverReorder_go_notFound (now : Nat) (st : List Task) :
    ∀ (orders : List (String × Int)) (acc : List Task),
    (∃ p ∈ orders, st.find? (fun t => t.id = p.1) = none) →
    ∃ m, serverReorder.go now st orders acc = .error (.notFound m) := by
  intro orders
  induction orders with
  | nil => intro acc h; simp at h
  | cons p rest ih =>
    intro acc h
    obtain ⟨tid, o⟩ := p
    cases hfind : st.find? (fun t => t.id = tid) with
    | none => exact ⟨"Task " ++ tid ++ " not found", by simp [serverReorder.go, hfind]⟩
    | some task =>
      rcases h with ⟨q, hq, hqnone⟩
      rcases List.mem_cons.mp hq with rfl | hqrest
      · rw [hfind] at hqnone; cases hqnone
      · obtain ⟨m, hm⟩ :=
          ih ({ task with order := o, updatedAt := now } :: acc) ⟨q, hqrest, hqnone⟩
        refine ⟨m, ?_⟩
        simp only [serverReorder.go, hfind]
        exact hm

/-- C2 counterexample: the claim says a reorder referencing an order value
below 1 fails with ValidationError without mutating state or reaching the
network; on the code, the call with order 0 reaches the network (and the
failure that comes back is a RemoteError, not a ValidationError). -/
theorem reorder_no_client_validation_cex :
    (reorderTasks 5 [⟨"a", "A", false, 1, 0, 0⟩] [("a", 0)] (.error "rejected")).networkCalled
        = true ∧
    (reorderTasks 5 [⟨"a", "A", false, 1, 0, 0⟩] [("a", 0)] (.error "rejected")).result
        = .error (.remote "rejected") := by
  decide

/-- C2 amended: reorderTasks performs no client-side validation — every
call reaches the network and the client never raises ValidationError; the
validation lives in the backend route, which rejects any order value < 1
with VALIDATION_ERROR and any absent task id with NOT_FOUND; composing
client and backend, a rejected reorder surfaces as a RemoteError and the
client collection is rolled back to the exact pre-call snapshot. -/
theorem reorder_validation_amended (clock now : Nat) (cs st : List Task)
    (orders : List (String × Int)) :
    (∀ remote, (reorderTasks clock cs orders remote).networkCalled = true) ∧
    (∀ remote m, (reorderTasks clock cs orders remote).result ≠ .error (.validationErr m)) ∧
    ((∀ p ∈ orders, p.1 ≠ "") → (∃ p ∈ orders, p.2 < 1) →
      serverReorder now st orders =
        .error (.validationErr "Each order item must have a valid order number (>= 1)")) ∧
    ((∀ p ∈ orders, p.1 ≠ "" ∧ 1 ≤ p.2) →
      (∃ p ∈ orders, st.find? (fun t => t.id = p.1) = none) →
      ∃ m, serverReorder now st orders = .error (.notFound m)) ∧
    (∀ err, serverReorder now st orders = .error err →
      reorderRoundTrip clock now cs st orders =
        ⟨.error (.remote (serverErrMessage err)), cs, true⟩) := by
  refine ⟨?_, ?_, ?_, ?_, ?_⟩
  · intro remote; cases remote <;> rfl
  · intro remote m; cases remote <;> simp [reorderTasks]
  · intro hids hbad
    have hne : ¬orders.isEmpty := by
      rcases hbad with ⟨p, hp, _⟩
      cases orders with
      | nil => simp at hp
      | cons q rest => simp [List.isEmpty]
    unfold serverReorder
    rw [if_neg hne, validateOrderItems_low_order orders hids hbad]
  · intro hitems hnone
    have hne : ¬orders.isEmpty := by
      rcases hnone with ⟨p, hp, _⟩
      cases orders with
      | nil => simp at hp
      | cons q rest => simp [List.isEmpty]
    obtain ⟨m, hm⟩ := serverReorder_go_notFound now st orders [] hnone
    refine ⟨m, ?_⟩
    unfold serverReorder
    rw [if_neg hne, validateOrderItems_ok orders hitems]
    exact hm
  · intro err herr
    unfold reorderRoundTrip
    rw [herr]
    rfl

/-- Witness for reorder_validation_amended: concrete backend rejections
for order 0 and for an unknown id, and the exact client rollback. -/
theorem reorder_validation_amended_witness :
    serverReorder 6 [⟨"a", "A", false, 1, 0, 0⟩] [("a", 0)] =
      .error (.validationErr "Each order item must have a valid order number (>= 1)") ∧
    (∃ m, serverReorder 6 [⟨"a", "A", false, 1, 0, 0⟩] [("ghost", 2)] = .error (.notFound m)) ∧
    reorderRoundTrip 5 6 [⟨"a", "A", false, 1, 0, 0⟩] [⟨"a", "A", false, 1, 0, 0⟩] [("a", 0)] =
      ⟨.error (.remote "Each order item must have a valid order number (>= 1)"),
       [⟨"a", "A", false, 1, 0, 0⟩], true⟩ :=
  ⟨(reorder_validation_amended 5 6 [⟨"a", "A", false, 1, 0, 0⟩] [⟨"a", "A", false, 1, 0, 0⟩]
      [("a", 0)]).2.2.1 (by decide) ⟨("a", 0), by decide, by decide⟩,
   (reorder_validation_amended 5 6 [⟨"a", "A", false, 1, 0, 0⟩] [⟨"a", "A", false, 1, 0, 0⟩]
      [("ghost", 2)]).2.2.2.1 (by decide) ⟨("ghost", 2), by decide, by decide⟩,
   (reorder_validation_amended 5 6 [⟨"a", "A", false, 1, 0, 0⟩] [⟨"a", "A", false, 1, 0, 0⟩]
      [("a", 0)]).2.2.2.2
     (.validationErr "Each order item must have a valid order number (>= 1)") (by decide)⟩

theorem serverReorder_go_ok_pairs (now : Nat) (st : List Task) :
    ∀ (orders : List (String × Int)) (acc : List Task) (l : List Task),
    serverReorder.go now st orders acc = .ok l →
    l.map (fun t => (t.id, t.order)) = acc.reverse.map (fun t => (t.id, t.order)) ++ orders := by
  intro orders
  induction orders with
  | nil =>
    intro acc l h
    simp only [serverReorder.go] at h
    cases h
    simp
  | cons p rest ih =>
    intro acc l h
    obtain ⟨tid, o⟩ := p
    cases hfind : st.find? (fun t => t.id = tid) with
    | none => simp [serverReorder.go, hfind] at h
    | some task =>
      simp only [serverReorder.go, hfind] at h
      have htid : task.id = tid := by simpa using List.find?_some hfind
      have := ih ({ task with order := o, updatedAt := now } :: acc) l h
      simpa [htid] using this

theorem serverReorder_go_ok_exists (now : Nat) (st : List Task) :
    ∀ (orders : List (String × Int)) (acc : List Task),
    (∀ p ∈ orders, st.find? (fun t => t.id = p.1) ≠ none) →
    ∃ l, serverReorder.go now st orders acc = .ok l := by
  intro orders
  induction orders with
  | nil => intro acc _; exact ⟨acc.reverse, rfl⟩
  | cons p rest ih =>
    intro acc h
    obtain ⟨tid, o⟩ := p
    cases hfind : st.find? (fun t => t.id = tid) with
    | none => exact absurd hfind (h (tid, o) (by simp))
    | some task =>
      obtain ⟨l, hl⟩ :=
        ih ({ task with order := o, updatedAt := now } :: acc) (fun q hq => h q (by simp [hq]))
      refine ⟨l, ?_⟩
      simp only [serverReorder.go, hfind]
      exact hl

/-- C9 counterexample: a reorder that succeeds with the non-contiguous
order values 5 and 9 — the resulting scope is not a dense 1..N sequence,
so no re-normalization happened on success. -/
theorem reorder_not_dense_cex :
    (reorderRoundTrip 5 6 [⟨"a", "A", false, 1, 0, 0⟩, ⟨"b", "B", false, 2, 0, 0⟩]
        [⟨"a", "A", false, 1, 0, 0⟩, ⟨"b", "B", false, 2, 0, 0⟩]
        [("a", 5), ("b", 9)]).result = .ok () ∧
    ((reorderRoundTrip 5 6 [⟨"a", "A", false, 1, 0, 0⟩, ⟨"b", "B", false, 2, 0, 0⟩]
        [⟨"a", "A", false, 1, 0, 0⟩, ⟨"b", "B", false, 2, 0, 0⟩]
        [("a", 5), ("b", 9)]).tasks.map (fun t => t.order)) = [5, 9] ∧
    ¬((reorderRoundTrip 5 6 [⟨"a", "A", false, 1, 0, 0⟩, ⟨"b", "B", false, 2, 0, 0⟩]
        [⟨"a", "A", false, 1, 0, 0⟩, ⟨"b", "B", false, 2, 0, 0⟩]
        [("a", 5), ("b", 9)]).tasks.map (fun t => t.order)
      = (List.range (reorderRoundTrip 5 6
          [⟨"a", "A", false, 1, 0, 0⟩, ⟨"b", "B", false, 2, 0, 0⟩]
          [⟨"a", "A", false, 1, 0, 0⟩, ⟨"b", "B", false, 2, 0, 0⟩]
          [("a", 5), ("b", 9)]).tasks.length).map (fun i => (i : Int) + 1)) := by
  decide

/-- C9 amended: a successful reorder applies exactly the caller-supplied
order values — the backend echoes one canonical copy per supplied
(id, order) pair, with precisely the supplied order — and succeeds
whenever every referenced id exists and the items are well-formed; the
scope is dense 1..N after success only when the caller supplied such a
sequence, not through any re-normalization. -/
theorem reorder_no_renormalization (now : Nat) (st : List Task)
    (orders : List (String × Int)) :
    (∀ resp, serverReorder now st orders = .ok resp →
      resp.map (fun t => (t.id, t.order)) = orders) ∧
    (orders ≠ [] →
      (∀ p ∈ orders, p.1 ≠ "" ∧ 1 ≤ p.2 ∧ st.find? (fun t => t.id = p.1) ≠ none) →
      ∃ resp, serverReorder now st orders = .ok resp) := by
  constructor
  · intro resp hresp
    unfold serverReorder at hresp
    by_cases hne : orders.isEmpty
    · rw [if_pos hne] at hresp; cases hresp
    · rw [if_neg hne] at hresp
      cases hval : validateOrderItems orders with
      | error e => rw [hval] at hresp; cases hresp
      | ok u =>
        rw [hval] at hresp
        simpa using serverReorder_go_ok_pairs now st orders [] resp hresp
  · intro hne hvalid
    have hempty : ¬orders.isEmpty := by
      cases orders with
      | nil => exact absurd rfl hne
      | cons q rest => simp [List.isEmpty]
    obtain ⟨l, hl⟩ :=
      serverReorder_go_ok_exists now st orders [] (fun p hp => (hvalid p hp).2.2)
    refine ⟨l, ?_⟩
    unfold serverReorder
    rw [if_neg hempty,
      validateOrderItems_ok orders (fun p hp => ⟨(hvalid p hp).1, (hvalid p hp).2.1⟩)]
    exact hl

/-- Witness for reorder_no_renormalization: the backend response for the
concrete reorder to orders 5 and 9 echoes exactly those pairs. -/
theorem reorder_no_renormalization_witness :
    ((serverReorder 6 [⟨"a", "A", false, 1, 0, 0⟩, ⟨"b", "B", false, 2, 0, 0⟩]
        [("a", 5), ("b", 9)]).map (fun l => l.map (fun t => (t.id, t.order)))
      = .ok [("a", 5), ("b", 9)]) ∧
    (∃ resp, serverReorder 6 [⟨"a", "A", false, 1, 0, 0⟩, ⟨"b", "B", false, 2, 0, 0⟩]
        [("a", 5), ("b", 9)] = .ok resp) := by
  constructor
  · have h := (reorder_no_renormalization 6
        [⟨"a", "A", false, 1, 0, 0⟩, ⟨"b", "B", false, 2, 0, 0⟩] [("a", 5), ("b", 9)]).1
        [⟨"a", "A", false, 5, 0, 6⟩, ⟨"b", "B", false, 9, 0, 6⟩] (by decide)
    rw [show serverReorder 6 [⟨"a", "A", false, 1, 0, 0⟩, ⟨"b", "B", false, 2, 0, 0⟩]
        [("a", 5), ("b", 9)]
        = .ok [⟨"a", "A", false, 5, 0, 6⟩, ⟨"b", "B", false, 9, 0, 6⟩] from by decide]
    exact congrArg Except.ok h
  · exact (reorder_no_renormalization 6
        [⟨"a", "A", false, 1, 0, 0⟩, ⟨"b", "B", false, 2, 0, 0⟩] [("a", 5), ("b", 9)]).2
      (by decide) (by decide)

/-- C4 counterexample: a CompleteTask action recorded with
previousState = false is undone while the task's flag is already false
(state moved on); undo dispatches a plain toggle, so the flag ends up
true, not the recorded previousState. -/
theorem complete_undo_ignores_recorded_state_cex :
    ((undo 7
        { createResp := .error "x", updateResp := .ok ⟨"a", "A", true, 1, 0, 7⟩,
          deleteResp := .error "x", reorderResp := .error "x" }
        [⟨"a", "A", false, 1, 0, 0⟩]
        ⟨[.completeTask "a" false 3], []⟩).1 = .ok ()) ∧
    ((undo 7
        { createResp := .error "x", updateResp := .ok ⟨"a", "A", true, 1, 0, 7⟩,
          deleteResp := .error "x", reorderResp := .error "x" }
        [⟨"a", "A", false, 1, 0, 0⟩]
        ⟨[.completeTask "a" false 3], []⟩).2.1.map (fun t => t.isCompleted) = [true]) := by
  decide

/-- C4 amended: the recorded previousState of a CompleteTask action is
never consulted by undo — the dispatch is identical for any recorded
previousState and timestamp — and undoing a CompleteTask dispatches
toggleComplete, which flips the flag relative to its current value at
undo time (so the result equals the recorded previousState only when the
flag at undo time happens to equal its negation). -/
theorem complete_undo_flips (clock : Nat) (env : RemoteEnv) (tasks : List Task)
    (s : UndoRedoState) (init : List UndoableAction) (tid : String) (p : Bool) (ts : Nat)
    (task : Task)
    (hstack : s.undoStack = init ++ [.completeTask tid p ts])
    (hfind : tasks.find? (fun t => t.id = tid) = some task)
    (hecho : env.updateResp =
      .ok { task with isCompleted := !task.isCompleted, updatedAt := clock }) :
    (∀ q ts2, dispatchUndo clock env tasks (.completeTask tid p ts) =
        dispatchUndo clock env tasks (.completeTask tid q ts2)) ∧
    undo clock env tasks s =
      (.ok (),
       tasks.map (fun t => if t.id = tid
         then { task with isCompleted := !task.isCompleted, updatedAt := clock } else t),
       { undoStack := init, redoStack := s.redoStack ++ [.completeTask tid p ts] }) := by
  constructor
  · intro q ts2; rfl
  · have hdisp : dispatchUndo clock env tasks (.completeTask tid p ts) =
        (.ok (), tasks.map (fun t => if t.id = tid
          then { task with isCompleted := !task.isCompleted, updatedAt := clock } else t)) := by
      simp only [dispatchUndo, hecho, toggleComplete, hfind, List.map_map]
      refine Prod.ext rfl ?_
      apply List.map_congr_left
      intro t _
      by_cases h : t.id = tid <;> simp [h]
    simp [undo, hstack, List.getLast?_concat, List.dropLast_concat, hdisp]

/-- Witness for complete_undo_flips: the concrete flip of an
already-completed task back to incomplete through undo. -/
theorem complete_undo_flips_witness :
    undo 9
      { createResp := .error "x", updateResp := .ok ⟨"a", "A", false, 1, 0, 9⟩,
        deleteResp := .error "x", reorderResp := .error "x" }
      [⟨"a", "A", true, 1, 0, 2⟩]
      ⟨[.completeTask "a" false 3], []⟩ =
      (.ok (), [⟨"a", "A", false, 1, 0, 9⟩], ⟨[], [.completeTask "a" false 3]⟩) := by
  have h := (complete_undo_flips 9
      { createResp := .error "x", updateResp := .ok ⟨"a", "A", false, 1, 0, 9⟩,
        deleteResp := .error "x", reorderResp := .error "x" }
      [⟨"a", "A", true, 1, 0, 2⟩]
      ⟨[.completeTask "a" false 3], []⟩ [] "a" false 3 ⟨"a", "A", true, 1, 0, 2⟩
      (by decide) (by decide) (by decide)).2
  simpa using h

/-- C8: undoing a DeleteTask action invokes the captured closure, which
recreates the task through the create endpoint with the recorded title:
the restored task carries the deleted task's (trimmed) title, a freshly
issued id different from the original, and is appended after the existing
tasks rather than reinserted at the original position. -/
theorem delete_undo_asymmetry (clock now : Nat) (env : RemoteEnv) (tasks : List Task)
    (s : UndoRedoState) (init : List UndoableAction) (dt : Task) (ts : Nat)
    (freshId : String) (restored : Task) (serverTasks : List Task)
    (hstack : s.undoStack = init ++ [.deleteTask dt ts])
    (hcreate : serverCreateTask now freshId serverTasks dt.title = .ok restored)
    (henv : env.createResp = .ok restored)
    (hfresh : freshId ≠ dt.id) :
    undo clock env tasks s =
      (.ok (), tasks ++ [restored],
       { undoStack := init, redoStack := s.redoStack ++ [.deleteTask dt ts] }) ∧
    restored.title = jsTrim dt.title ∧
    (jsTrim dt.title = dt.title → restored.title = dt.title) ∧
    restored.id ≠ dt.id := by
  have hr : restored =
      { id := freshId, title := jsTrim dt.title, isCompleted := false,
        order := jsMaxOrder serverTasks + 1, createdAt := now, updatedAt := now } := by
    unfold serverCreateTask at hcreate
    split_ifs at hcreate
    cases hcreate
    rfl
  refine ⟨?_, ?_, ?_, ?_⟩
  · simp [undo, hstack, List.getLast?_concat, List.dropLast_concat, dispatchUndo,
      deleteUndoClosure, henv]
  · rw [hr]
  · intro htrim; rw [hr, htrim]
  · rw [hr]; exact hfresh

/-- Witness for delete_undo_asymmetry: deleting "Buy milk" and undoing
appends a server-created copy with a new id at the end. -/
theorem delete_undo_asymmetry_witness :
    undo 9
      { createResp := .ok ⟨"srv9", "Buy milk", false, 2, 8, 8⟩, updateResp := .error "x",
        deleteResp := .error "x", reorderResp := .error "x" }
      [⟨"x1", "X", false, 1, 0, 0⟩]
      ⟨[.deleteTask ⟨"old1", "Buy milk", false, 1, 0, 0⟩ 3], []⟩ =
      (.ok (), [⟨"x1", "X", false, 1, 0, 0⟩, ⟨"srv9", "Buy milk", false, 2, 8, 8⟩],
       ⟨[], [.deleteTask ⟨"old1", "Buy milk", false, 1, 0, 0⟩ 3]⟩) ∧
    (⟨"srv9", "Buy milk", false, 2, 8, 8⟩ : Task).id ≠
      (⟨"old1", "Buy milk", false, 1, 0, 0⟩ : Task).id := by
  have h := delete_undo_asymmetry 9 8
      { createResp := .ok ⟨"srv9", "Buy milk", false, 2, 8, 8⟩, updateResp := .error "x",
        deleteResp := .error "x", reorderResp := .error "x" }
      [⟨"x1", "X", false, 1, 0, 0⟩]
      ⟨[.deleteTask ⟨"old1", "Buy milk", false, 1, 0, 0⟩ 3], []⟩ []
      ⟨"old1", "Buy milk", false, 1, 0, 0⟩ 3 "srv9"
      ⟨"srv9", "Buy milk", false, 2, 8, 8⟩ [⟨"s1", "S", false, 1, 0, 0⟩]
      (by decide) (by decide) (by decide) (by decide)
  exact ⟨by simpa using h.1, h.2.2.2⟩

theorem insertByOrder_append (t : Task) (l : List Task)
    (h : ∀ u ∈ l, u.order ≤ t.order) : insertByOrder t l = l ++ [t] := by
  induction l with
  | nil => rfl
  | cons u us ih =>
    simp only [insertByOrder]
    rw [if_pos (h u (by simp))]
    rw [ih (fun v hv => h v (by simp [hv]))]
    rfl

theorem insertByOrder_middle (t v : Task) (l₁ l₂ : List Task)
    (h₁ : ∀ u ∈ l₁, u.order ≤ t.order) (h₂ : ¬v.order ≤ t.order) :
    insertByOrder t (l₁ ++ v :: l₂) = l₁ ++ t :: v :: l₂ := by
  induction l₁ with
  | nil => simp [insertByOrder, if_neg h₂]
  | cons u us ih =>
    simp only [List.cons_append, insertByOrder, List.append_eq]
    rw [if_pos (h₁ u (by simp))]
    rw [ih (fun w hw => h₁ w (by simp [hw]))]

theorem foldl_insert_sorted (l : List Task) :
    ∀ acc : List Task, (acc ++ l).Pairwise (fun a b => a.order ≤ b.order) →
    List.foldl (fun acc t => insertByOrder t acc) acc l = acc ++ l := by
  induction l with
  | nil => intro acc _; simp
  | cons t ts ih =>
    intro acc h
    have hacc : ∀ u ∈ acc, u.order ≤ t.order := by
      rcases List.pairwise_append.mp h with ⟨_, _, hcross⟩
      exact fun u hu => hcross u hu t (by simp)
    have hshift : ((acc ++ [t]) ++ ts).Pairwise (fun a b => a.order ≤ b.order) := by
      simpa [List.append_assoc] using h
    calc List.foldl (fun acc t => insertByOrder t acc) acc (t :: ts)
        = List.foldl (fun acc t => insertByOrder t acc) (insertByOrder t acc) ts := rfl
      _ = List.foldl (fun acc t => insertByOrder t acc) (acc ++ [t]) ts := by
          rw [insertByOrder_append t acc hacc]
      _ = (acc ++ [t]) ++ ts := ih (acc ++ [t]) hshift
      _ = acc ++ t :: ts := by simp

theorem sortByOrder_reinsert (l₁ l₂ : List Task) (t : Task)
    (hsorted : (l₁ ++ t :: l₂).Pairwise (fun a b => a.order < b.order)) :
    sortByOrder ((l₁ ++ l₂) ++ [t]) = l₁ ++ t :: l₂ := by
  have hsub : (l₁ ++ l₂).Pairwise (fun a b => a.order < b.order) :=
    List.Pairwise.sublist ((l₂.sublist_cons_self t).append_left l₁) hsorted
  have hle : (l₁ ++ l₂).Pairwise (fun a b => a.order ≤ b.order) :=
    hsub.imp (fun h => le_of_lt h)
  rcases List.pairwise_append.mp hsorted with ⟨hl₁, hcons, hcross⟩
  have hsort12 : sortByOrder (l₁ ++ l₂) = l₁ ++ l₂ := by
    have := foldl_insert_sorted (l₁ ++ l₂) [] (by simpa using hle)
    simpa [sortByOrder] using this
  have hstep : sortByOrder ((l₁ ++ l₂) ++ [t]) = insertByOrder t (sortByOrder (l₁ ++ l₂)) := by
    simp [sortByOrder, List.foldl_append]
  rw [hstep, hsort12]
  have hl₁t : ∀ u ∈ l₁, u.order ≤ t.order :=
    fun u hu => le_of_lt (hcross u hu t (by simp))
  cases l₂ with
  | nil => simpa using insertByOrder_append t l₁ hl₁t
  | cons v vs =>
    have hv : ¬v.order ≤ t.order := by
      have := (List.pairwise_cons.mp hcons).1 v (by simp)
      omega
    exact insertByOrder_middle t v l₁ vs hl₁t hv

theorem find?_id_middle (l₁ l₂ : List Task) (t : Task) (tid : String) (ht : t.id = tid)
    (h₁ : ∀ u ∈ l₁, u.id ≠ tid) :
    (l₁ ++ t :: l₂).find? (fun u => u.id = tid) = some t := by
  induction l₁ with
  | nil => simp [List.find?_cons, ht]
  | cons u us ih =>
    have hu : ¬u.id = tid := h₁ u (by simp)
    simp only [List.cons_append]
    rw [List.find?_cons_of_neg _ (by simpa using hu)]
    exact ih (fun v hv => h₁ v (by simp [hv]))

theorem filter_id_middle (l₁ l₂ : List Task) (t : Task) (tid : String) (ht : t.id = tid)
    (h : ∀ u ∈ l₁ ++ l₂, u.id ≠ tid) :
    (l₁ ++ t :: l₂).filter (fun u => u.id ≠ tid) = l₁ ++ l₂ := by
  rcases List.forall_mem_append.mp h with ⟨h₁, h₂⟩
  rw [List.filter_append, List.filter_cons]
  rw [if_neg (by simp [ht])]
  rw [List.filter_eq_self.mpr (fun u hu => by simpa using h₁ u hu),
    List.filter_eq_self.mpr (fun u hu => by simpa using h₂ u hu)]

/-- C1 counterexample: a failed toggleComplete rolls back only the flag —
updatedAt keeps the optimistic timestamp (5), so the collection after
rollback is not deep-equal to the collection before the call. -/
theorem rollback_not_exact_cex :
    (toggleComplete 5 [⟨"a", "A", false, 1, 0, 0⟩] "a" (.error "network")).tasks
        ≠ [⟨"a", "A", false, 1, 0, 0⟩] ∧
    (toggleComplete 5 [⟨"a", "A", false, 1, 0, 0⟩] "a" (.error "network")).tasks
        = [⟨"a", "A", false, 1, 0, 5⟩] := by
  decide

/-- C1 amended: per-operation rollback exactness. When the network call
fails, create removes exactly the optimistic temp entity and reorder
restores the snapshot, leaving the collection deep-equal to the pre-call
state; delete re-inserts the captured copy at its order-sorted position,
which restores the pre-call collection exactly when the collection is
strictly sorted by order; toggleComplete and updateTitle restore every
field except updatedAt, which keeps the optimistic timestamp. -/
theorem rollback_per_operation :
    (∀ (clock : Nat) (tasks : List Task) (title : String) (e : String),
      (∀ t ∈ tasks, t.id ≠ tempId clock) →
      (createTask clock tasks title (.error e)).tasks = tasks) ∧
    (∀ (clock : Nat) (tasks : List Task) (orders : List (String × Int)) (e : String),
      (reorderTasks clock tasks orders (.error e)).tasks = tasks) ∧
    (∀ (clock : Nat) (tasks : List Task) (tid e : String) (task : Task),
      tasks.find? (fun t => t.id = tid) = some task →
      (∀ t ∈ tasks, t.id = tid → t = task) →
      (toggleComplete clock tasks tid (.error e)).tasks =
        tasks.map (fun t => if t.id = tid then { t with updatedAt := clock } else t)) ∧
    (∀ (clock : Nat) (tasks : List Task) (tid newTitle e : String) (task : Task),
      tasks.find? (fun t => t.id = tid) = some task →
      (∀ t ∈ tasks, t.id = tid → t = task) →
      jsTrim newTitle ≠ "" → ¬jsLength (jsTrim newTitle) > 64 →
      jsTrim newTitle ≠ task.title →
      (updateTitle clock tasks tid newTitle (.error e)).tasks =
        tasks.map (fun t => if t.id = tid then { t with updatedAt := clock } else t)) ∧
    (∀ (l₁ l₂ : List Task) (t : Task) (tid e : String),
      t.id = tid →
      (∀ u ∈ l₁ ++ l₂, u.id ≠ tid) →
      (l₁ ++ t :: l₂).Pairwise (fun a b => a.order < b.order) →
      (deleteTask (l₁ ++ t :: l₂) tid (.error e)).tasks = l₁ ++ t :: l₂) := by
  refine ⟨?_, ?_, ?_, ?_, ?_⟩
  · intro clock tasks title e hfresh
    unfold createTask
    split_ifs with h1 h2 h3
    · rfl
    · rfl
    · rfl
    · show (tasks ++ [optimisticTask clock tasks title]).filter
          (fun t => t.id ≠ (optimisticTask clock tasks title).id) = tasks
      rw [List.filter_append]
      rw [List.filter_eq_self.mpr
        (fun t ht => by simpa [optimisticTask] using hfresh t ht)]
      simp
  · intro clock tasks orders e
    rfl
  · intro clock tasks tid e task hfind huniq
    simp only [toggleComplete, hfind, List.map_map]
    apply List.map_congr_left
    intro t ht
    by_cases h : t.id = tid
    · have ht2 : t = task := huniq t ht h
      subst ht2
      simp [h, Bool.not_not]
    · simp [h]
  · intro clock tasks tid newTitle e task hfind huniq htrim hlen hne
    simp only [updateTitle, hfind, List.map_map]
    rw [if_neg htrim, if_neg hlen, if_neg hne]
    apply List.map_congr_left
    intro t ht
    by_cases h : t.id = tid
    · have ht2 : t = task := huniq t ht h
      subst ht2
      simp [h]
    · simp [h]
  · intro l₁ l₂ t tid e ht hfresh hsorted
    have hfind := find?_id_middle l₁ l₂ t tid ht
      (fun u hu => hfresh u (List.mem_append_left _ hu))
    simp only [deleteTask, hfind]
    rw [filter_id_middle l₁ l₂ t tid ht hfresh]
    exact sortByOrder_reinsert l₁ l₂ t hsorted

/-- Witness for rollback_per_operation: concrete failing mutations of each
of the five kinds, with create/reorder/delete restored exactly and
toggle/updateTitle restored except for the optimistic updatedAt stamp. -/
theorem rollback_per_operation_witness :
    (createTask 5 [⟨"a", "A", false, 1, 0, 0⟩] "B" (.error "x")).tasks
        = [⟨"a", "A", false, 1, 0, 0⟩] ∧
    (reorderTasks 5 [⟨"a", "A", false, 1, 0, 0⟩] [("a", 3)] (.error "x")).tasks
        = [⟨"a", "A", false, 1, 0, 0⟩] ∧
    (toggleComplete 5 [⟨"a", "A", false, 1, 0, 0⟩] "a" (.error "x")).tasks
        = [⟨"a", "A", false, 1, 0, 5⟩] ∧
    (updateTitle 5 [⟨"a", "A", false, 1, 0, 0⟩] "a" "New" (.error "x")).tasks
        = [⟨"a", "A", false, 1, 0, 5⟩] ∧
    (deleteTask [⟨"a", "A", false, 1, 0, 0⟩, ⟨"b", "B", false, 2, 0, 0⟩,
        ⟨"c", "C", false, 3, 0, 0⟩] "b" (.error "x")).tasks
        = [⟨"a", "A", false, 1, 0, 0⟩, ⟨"b", "B", false, 2, 0, 0⟩,
           ⟨"c", "C", false, 3, 0, 0⟩] := by
  refine ⟨?_, ?_, ?_, ?_, ?_⟩
  · exact rollback_per_operation.1 5 [⟨"a", "A", false, 1, 0, 0⟩] "B" "x" (by decide)
  · exact rollback_per_operation.2.1 5 [⟨"a", "A", false, 1, 0, 0⟩] [("a", 3)] "x"
  · have h := rollback_per_operation.2.2.1 5 [⟨"a", "A", false, 1, 0, 0⟩] "a" "x"
      ⟨"a", "A", false, 1, 0, 0⟩ (by decide) (by decide)
    rw [h]; decide
  · have h := rollback_per_operation.2.2.2.1 5 [⟨"a", "A", false, 1, 0, 0⟩] "a" "New" "x"
      ⟨"a", "A", false, 1, 0, 0⟩ (by decide) (by decide) (by decide) (by decide) (by decide)
    rw [h]; decide
  · exact rollback_per_operation.2.2.2.2 [⟨"a", "A", false, 1, 0, 0⟩]
      [⟨"c", "C", false, 3, 0, 0⟩] ⟨"b", "B", false, 2, 0, 0⟩ "b" "x"
      (by decide) (by decide) (by decide)

theorem toDigitsRec_eq (n : Nat) : toDigitsRec n =
    if n / 10 = 0 then [Nat.digitChar (n % 10)]
    else toDigitsRec (n / 10) ++ [Nat.digitChar (n % 10)] := by
  by_cases h : n / 10 = 0
  · rw [toDigitsRec]
    rw [dif_pos h, if_pos h]
  · rw [toDigitsRec]
    rw [dif_neg h, if_neg h]

theorem toDigitsCore_eq_toDigitsRec :
    ∀ (f n : Nat) (l : List Char), n < f →
    Nat.toDigitsCore 10 f n l = toDigitsRec n ++ l := by
  intro f
  induction f with
  | zero => intro n l h; omega
  | succ f ih =>
    intro n l h
    by_cases hn : n / 10 = 0
    · simp only [Nat.toDigitsCore, hn, if_true]
      rw [toDigitsRec_eq n, if_pos hn]
      rfl
    · have hpos : 0 < n := Nat.pos_of_ne_zero (fun h0 => hn (by simp [h0]))
      have hdiv : n / 10 < n := Nat.div_lt_self hpos (by norm_num)
      simp only [Nat.toDigitsCore, hn, if_false]
      rw [ih (n / 10) (Nat.digitChar (n % 10) :: l) (by omega)]
      rw [toDigitsRec_eq n, if_neg hn]
      simp

theorem toDigits_eq_toDigitsRec (n : Nat) : Nat.toDigits 10 n = toDigitsRec n := by
  have h := toDigitsCore_eq_toDigitsRec (n + 1) n [] (Nat.lt_succ_self n)
  simpa [Nat.toDigits] using h

theorem digitChar_inj_of_lt (a b : Nat) (ha : a < 10) (hb : b < 10)
    (h : Nat.digitChar a = Nat.digitChar b) : a = b := by
  have hfin : ∀ x y : Fin 10, Nat.digitChar x.val = Nat.digitChar y.val → x = y := by decide
  have := hfin ⟨a, ha⟩ ⟨b, hb⟩ h
  exact congrArg Fin.val this

theorem toDigitsRec_ne_nil (n : Nat) : toDigitsRec n ≠ [] := by
  rw [toDigitsRec_eq n]
  split <;> simp

theorem toDigitsRec_injective (m : Nat) :
    ∀ n, toDigitsRec m = toDigitsRec n → m = n := by
  induction m using Nat.strong_induction_on with
  | _ m ih =>
    intro n h
    by_cases hm : m / 10 = 0 <;> by_cases hn : n / 10 = 0
    · rw [toDigitsRec_eq m, if_pos hm, toDigitsRec_eq n, if_pos hn] at h
      have hd : Nat.digitChar (m % 10) = Nat.digitChar (n % 10) := by
        simpa using h
      have := digitChar_inj_of_lt (m % 10) (n % 10)
        (Nat.mod_lt m (by norm_num)) (Nat.mod_lt n (by norm_num)) hd
      have hmlt : m < 10 := (Nat.div_eq_zero_iff (by norm_num)).mp hm
      have hnlt : n < 10 := (Nat.div_eq_zero_iff (by norm_num)).mp hn
      rwa [Nat.mod_eq_of_lt hmlt, Nat.mod_eq_of_lt hnlt] at this
    · rw [toDigitsRec_eq m, if_pos hm, toDigitsRec_eq n, if_neg hn] at h
      have hlen := congrArg List.length h
      rw [List.length_append] at hlen
      simp only [List.length_cons, List.length_nil] at hlen
      have hpos := List.length_pos.mpr (toDigitsRec_ne_nil (n / 10))
      omega
    · rw [toDigitsRec_eq m, if_neg hm, toDigitsRec_eq n, if_pos hn] at h
      have hlen := congrArg List.length h
      rw [List.length_append] at hlen
      simp only [List.length_cons, List.length_nil] at hlen
      have hpos := List.length_pos.mpr (toDigitsRec_ne_nil (m / 10))
      omega
    · rw [toDigitsRec_eq m, if_neg hm, toDigitsRec_eq n, if_neg hn] at h
      have hsplit := List.append_inj' h (by rfl)
      have hdiv : m / 10 = n / 10 := by
        have hlt : m / 10 < m :=
          Nat.div_lt_self (Nat.pos_of_ne_zero (fun h0 => hm (by simp [h0]))) (by norm_num)
        exact ih (m / 10) hlt (n / 10) hsplit.1
      have hmod : m % 10 = n % 10 := by
        have hd : Nat.digitChar (m % 10) = Nat.digitChar (n % 10) := by
          have := hsplit.2
          simpa using this
        exact digitChar_inj_of_lt _ _ (Nat.mod_lt m (by norm_num)) (Nat.mod_lt n (by norm_num)) hd
      have h1 := Nat.div_add_mod m 10
      have h2 := Nat.div_add_mod n 10
      omega

theorem nat_repr_injective (m n : Nat) (h : Nat.repr m = Nat.repr n) : m = n := by
  apply toDigitsRec_injective m n
  rw [← toDigits_eq_toDigitsRec, ← toDigits_eq_toDigitsRec]
  have hd := congrArg String.data h
  simpa [Nat.repr, List.asString] using hd

theorem tempId_injective (c₁ c₂ : Nat) (h : tempId c₁ = tempId c₂) : c₁ = c₂ := by
  apply nat_repr_injective
  have hd := congrArg String.data h
  simp only [tempId, String.data_append] at hd
  have := List.append_cancel_left hd
  exact String.ext this

/-- C3 counterexample: two creates issued in the same millisecond (same
Date.now() reading) synthesize the same temp id — here the second create
is issued while the first optimistic entity is still pending in the same
scope, and the two pending temp entities collide on id "temp-1000". -/
theorem tempid_collision_cex :
    (optimisticTask 1000 [] "A").id
        = (optimisticTask 1000 [optimisticTask 1000 [] "A"] "B").id ∧
    (optimisticTask 1000 [] "A").title
        ≠ (optimisticTask 1000 [optimisticTask 1000 [] "A"] "B").title := by
  constructor
  · rfl
  · decide

/-- C3 amended: temp ids are derived solely from the millisecond clock
reading, so two pending creates collide exactly when issued in the same
millisecond; whenever the two creates observe distinct Date.now() values,
their synthesized temp ids are distinct. -/
theorem tempid_distinct_clocks (c₁ c₂ : Nat) (tasks₁ tasks₂ : List Task)
    (title₁ title₂ : String) (h : c₁ ≠ c₂) :
    (optimisticTask c₁ tasks₁ title₁).id ≠ (optimisticTask c₂ tasks₂ title₂).id :=
  fun hid => h (tempId_injective c₁ c₂ hid)

/-- Witness for tempid_distinct_clocks: creates one millisecond apart get
distinct temp ids. -/
theorem tempid_distinct_clocks_witness :
    (optimisticTask 1000 [] "A").id ≠ (optimisticTask 1001 [] "B").id :=
  tempid_distinct_clocks 1000 1001 [] [] "A" "B" (by decide)

end TaskApp
